import Mathlib

/-
  Verification of the object-key generation logic of the
  tebi-aws-sdk-go-examples repository.

  The repository contains two Go command programs (one using AWS SDK v1,
  one using AWS SDK v2). Each program defines the same pair of functions

    GenerateImageKey(filename string) (string, error)
    GenerateImageKeyWithEnv(filename, environment string) (string, error)

  which build object-storage keys of the shape
  `[dev/]YYYYMM/<nanoid>.<extension>`.

  Shallow embedding choices:
  * Go strings are modelled as lists of characters (`GoStr`).
  * Go's ambient wall clock (`time.Now()` followed by `Format("200601")`)
    is modelled by passing in a `GoTime` (year and month fields, which are
    exactly the fields that the `"200601"` layout reads) and formatting it
    with `format200601`, a faithful model of Go's zero-padded rendering of
    the year to four digits and the month to two digits.
  * The call `gonanoid.New(15)` returns a `(string, error)` pair; its
    outcome is passed in as a `GoStr × Option GoStr` value (`none` = nil
    error), so each Go function becomes a pure function of
    (filename, [environment,] time, random-source outcome).
  * A Go `(string, error)` return value is modelled as `GoStr × Option GoStr`;
    `fmt.Errorf("failed to generate nanoid: %w", err)` wraps the error
    message by prepending the literal text.
-/

/-- Go strings, modelled as lists of characters. -/
abbrev GoStr := List Char

/-- Helper for `goSplit`: extend the first chunk of a split result with one
leading character (the chunk list produced by `goSplit` is never empty; the
nil case is unreachable). -/
def consHead (c : Char) : List GoStr → List GoStr
  | [] => [[c]]
  | p :: ps => (c :: p) :: ps

/-- Model of Go `strings.Split(s, sep)` for a one-character separator:
splits around every occurrence of `sep`; the result always has
`count sep s + 1` chunks, and `strings.Split("", sep) = [""]`. -/
def goSplit (sep : Char) : GoStr → List GoStr
  | [] => [[]]
  | c :: cs => if c = sep then [] :: goSplit sep cs else consHead c (goSplit sep cs)

/-- The decimal digit character for a digit value, as produced by Go's
time formatting of a decimal digit (values `≥ 10` never occur). -/
def digitChar : Nat → Char
  | 0 => '0'
  | 1 => '1'
  | 2 => '2'
  | 3 => '3'
  | 4 => '4'
  | 5 => '5'
  | 6 => '6'
  | 7 => '7'
  | 8 => '8'
  | 9 => '9'
  | _ + 10 => '0'

/-- Fuel-indexed decimal rendering of a natural number (most significant
digit first); `fuel > n` always suffices since the argument shrinks by a
factor of ten each step. -/
def natToDigitsAux : Nat → Nat → GoStr
  | 0, _ => []
  | fuel + 1, n =>
    if n < 10 then [digitChar n]
    else natToDigitsAux fuel (n / 10) ++ [digitChar (n % 10)]

/-- Decimal rendering of a natural number, most significant digit first
(Go's rendering of a number inside a time layout). -/
def natToDigits (n : Nat) : GoStr := natToDigitsAux (n + 1) n

/-- Left-pad a string with `'0'` up to width `w` (Go's zero-padding of
numeric fields in a time layout). -/
def padZeros (w : Nat) (s : GoStr) : GoStr := List.replicate (w - s.length) '0' ++ s

/-- The fields of the Go wall-clock value that the `"200601"` layout reads:
the calendar year and the calendar month. -/
structure GoTime where
  year : Nat
  month : Nat

/-- Model of Go `now.Format("200601")`: the year zero-padded to four digits
followed by the month zero-padded to two digits. -/
def format200601 (t : GoTime) : GoStr :=
  padZeros 4 (natToDigits t.year) ++ padZeros 2 (natToDigits t.month)

/-- The message text prepended by
`fmt.Errorf("failed to generate nanoid: %w", err)`. -/
def nanoidErrMsg : GoStr := "failed to generate nanoid: ".data

namespace SdkV1

/-- Extension extraction of `GenerateImageKey` (src/cmd/sdk-v1/main.go,
lines 23–27): split the filename on `"."`; if there is more than one part
the extension is the last part, otherwise the default `"jpg"`. -/
def extOf (filename : GoStr) : GoStr :=
  let parts := goSplit '.' filename
  if parts.length > 1 then parts.getLastD [] else "jpg".data

/-- src/cmd/sdk-v1/main.go `GenerateImageKey`: on a nil nanoid error the
key is `fmt.Sprintf("%s/%s.%s", yearMonth, nanoID, ext)`; on a non-nil
error it returns `""` and the wrapped error. -/
def GenerateImageKey (filename : GoStr) (now : GoTime)
    (nanoid : GoStr × Option GoStr) : GoStr × Option GoStr :=
  let ext := extOf filename
  let yearMonth := format200601 now
  match nanoid with
  | (_, some err) => ([], some (nanoidErrMsg ++ err))
  | (nanoID, none) => (yearMonth ++ '/' :: nanoID ++ '.' :: ext, none)

/-- src/cmd/sdk-v1/main.go `GenerateImageKeyWithEnv`: propagate a
generation error as `("", err)`; otherwise prepend `"dev/"` exactly when
the environment is `"dev"` or `"development"`. -/
def GenerateImageKeyWithEnv (filename environment : GoStr) (now : GoTime)
    (nanoid : GoStr × Option GoStr) : GoStr × Option GoStr :=
  match GenerateImageKey filename now nanoid with
  | (_, some err) => ([], some err)
  | (key, none) =>
    if environment = "dev".data ∨ environment = "development".data then
      ("dev/".data ++ key, none)
    else
      (key, none)

end SdkV1

namespace SdkV2

/-- Extension extraction of `GenerateImageKey` in the SDK v2 program
(same lines as the v1 program). -/
def extOf (filename : GoStr) : GoStr :=
  let parts := goSplit '.' filename
  if parts.length > 1 then parts.getLastD [] else "jpg".data

/-- The SDK v2 program's `GenerateImageKey` (textually identical to the
v1 program's function). -/
def GenerateImageKey (filename : GoStr) (now : GoTime)
    (nanoid : GoStr × Option GoStr) : GoStr × Option GoStr :=
  let ext := extOf filename
  let yearMonth := format200601 now
  match nanoid with
  | (_, some err) => ([], some (nanoidErrMsg ++ err))
  | (nanoID, none) => (yearMonth ++ '/' :: nanoID ++ '.' :: ext, none)

/-- The SDK v2 program's `GenerateImageKeyWithEnv` (textually identical to
the v1 program's function). -/
def GenerateImageKeyWithEnv (filename environment : GoStr) (now : GoTime)
    (nanoid : GoStr × Option GoStr) : GoStr × Option GoStr :=
  match GenerateImageKey filename now nanoid with
  | (_, some err) => ([], some err)
  | (key, none) =>
    if environment = "dev".data ∨ environment = "development".data then
      ("dev/".data ++ key, none)
    else
      (key, none)

end SdkV2

/-- The URL-safe nanoid alphabet character class `[A-Za-z0-9_-]`, used to
state the key pattern from the specification. -/
def isUrlSafeChar (c : Char) : Bool :=
  c.isAlpha || c.isDigit || c = '-' || c = '_'

theorem consHead_ne_nil (c : Char) (l : List GoStr) : consHead c l ≠ [] := by
  cases l <;> simp [consHead]

theorem goSplit_ne_nil (sep : Char) (l : GoStr) : goSplit sep l ≠ [] := by
  cases l with
  | nil => simp [goSplit]
  | cons c cs =>
    simp only [goSplit]
    split
    · simp
    · exact consHead_ne_nil c _

theorem goSplit_of_not_mem (sep : Char) (l : GoStr) (h : sep ∉ l) : goSplit sep l = [l] := by
  induction l with
  | nil => rfl
  | cons c cs ih =>
    have h2 : ¬(sep = c ∨ sep ∈ cs) := fun x => h (List.mem_cons.mpr x)
    push_neg at h2
    have hc : ¬c = sep := fun e => h2.1 e.symm
    simp only [goSplit, if_neg hc, ih h2.2, consHead]

theorem getLastD_cons_eq (a : GoStr) (l : List GoStr) (d : GoStr) :
    List.getLastD (a :: l) d = List.getLastD l a := by
  cases l <;> rfl

theorem getLastD_of_ne_nil {l : List GoStr} (h : l ≠ []) (d e : GoStr) :
    List.getLastD l d = List.getLastD l e := by
  cases l with
  | nil => exact absurd rfl h
  | cons a as => rfl

theorem goSplit_last (sep : Char) (s t : GoStr) (h : sep ∉ t) :
    (goSplit sep (s ++ sep :: t)).getLastD [] = t ∧
      1 < (goSplit sep (s ++ sep :: t)).length := by
  induction s with
  | nil =>
    simp only [List.nil_append, goSplit, if_pos rfl, goSplit_of_not_mem sep t h]
    exact ⟨rfl, by simp⟩
  | cons c s ih =>
    obtain ⟨ih1, ih2⟩ := ih
    have hgoal : goSplit sep ((c :: s) ++ sep :: t)
        = if c = sep then [] :: goSplit sep (s ++ sep :: t)
          else consHead c (goSplit sep (s ++ sep :: t)) := rfl
    rw [hgoal]
    by_cases hc : c = sep
    · rw [if_pos hc]
      refine ⟨?_, ?_⟩
      · rw [getLastD_cons_eq]
        exact ih1
      · simp only [List.length_cons]
        omega
    · rw [if_neg hc]
      cases hR : goSplit sep (s ++ sep :: t) with
      | nil => exact absurd hR (goSplit_ne_nil _ _)
      | cons p ps =>
        cases ps with
        | nil => rw [hR] at ih2; simp at ih2
        | cons q qs =>
          rw [hR] at ih1
          rw [getLastD_cons_eq] at ih1
          constructor
          · show List.getLastD ((c :: p) :: q :: qs) [] = t
            rw [getLastD_cons_eq, getLastD_of_ne_nil (List.cons_ne_nil q qs) (c :: p) p]
            exact ih1
          · simp only [consHead, List.length_cons]
            omega

theorem goSplit_length (sep : Char) (l : GoStr) :
    (goSplit sep l).length = l.count sep + 1 := by
  induction l with
  | nil => rfl
  | cons c cs ih =>
    simp only [goSplit]
    by_cases hc : c = sep
    · subst hc
      rw [if_pos rfl]
      simp [List.count_cons, ih]
    · rw [if_neg hc]
      have hlen : (consHead c (goSplit sep cs)).length = (goSplit sep cs).length := by
        cases h : goSplit sep cs with
        | nil => exact absurd h (goSplit_ne_nil _ _)
        | cons p ps => simp [consHead]
      have hsc : ¬sep = c := fun e => hc e.symm
      rw [hlen, ih]
      simp [List.count_cons, hsc]

theorem digitChar_isDigit (d : Nat) : (digitChar d).isDigit = true := by
  unfold digitChar
  split <;> rfl

theorem digitChar_toNat (d : Nat) (h : d < 10) : (digitChar d).toNat = 48 + d := by
  unfold digitChar
  split <;> first | rfl | omega

theorem isDigit_ne_slash {c : Char} (h : c.isDigit = true) : c ≠ '/' := by
  rintro rfl
  exact absurd h (by decide)

theorem isDigit_ne_d {c : Char} (h : c.isDigit = true) : c ≠ 'd' := by
  rintro rfl
  exact absurd h (by decide)

theorem natToDigitsAux_congr : ∀ f g n, n < f → n < g →
    natToDigitsAux f n = natToDigitsAux g n := by
  intro f
  induction f with
  | zero => intro g n hf _; exact absurd hf (Nat.not_lt_zero n)
  | succ f ih =>
    intro g n hf hg
    cases g with
    | zero => exact absurd hg (Nat.not_lt_zero n)
    | succ g =>
      simp only [natToDigitsAux]
      by_cases h : n < 10
      · simp [h]
      · rw [if_neg h, if_neg h]
        have hd : n / 10 < n := Nat.div_lt_self (by omega) (by omega)
        exact congrArg (· ++ [digitChar (n % 10)]) (ih g (n / 10) (by omega) (by omega))

theorem natToDigits_eq (n : Nat) :
    natToDigits n = if n < 10 then [digitChar n]
      else natToDigits (n / 10) ++ [digitChar (n % 10)] := by
  show natToDigitsAux (n + 1) n = _
  by_cases h : n < 10
  · simp only [natToDigitsAux, if_pos h]
  · simp only [natToDigitsAux, if_neg h]
    have hd : n / 10 < n := Nat.div_lt_self (by omega) (by omega)
    rw [natToDigitsAux_congr n (n / 10 + 1) (n / 10) (by omega) (by omega)]
    rfl

theorem natToDigits_ne_nil (n : Nat) : natToDigits n ≠ [] := by
  rw [natToDigits_eq]
  by_cases h : n < 10 <;> simp [h]

theorem natToDigits_isDigit (n : Nat) : ∀ c ∈ natToDigits n, c.isDigit = true := by
  induction n using Nat.strong_induction_on with
  | _ n ih =>
    rw [natToDigits_eq]
    by_cases h : n < 10
    · simp only [if_pos h, List.mem_singleton]
      rintro c rfl
      exact digitChar_isDigit n
    · simp only [if_neg h, List.mem_append, List.mem_singleton]
      rintro c (hc | rfl)
      · exact ih (n / 10) (Nat.div_lt_self (by omega) (by omega)) c hc
      · exact digitChar_isDigit _

theorem natToDigits_length_le : ∀ k n : Nat, 0 < k → n < 10 ^ k →
    (natToDigits n).length ≤ k := by
  intro k
  induction k with
  | zero => intro n h _; exact absurd h (by omega)
  | succ k ihk =>
    intro n _ hn
    rw [natToDigits_eq]
    by_cases h : n < 10
    · simp only [if_pos h, List.length_singleton]
      omega
    · rw [if_neg h]
      simp only [List.length_append, List.length_singleton]
      have hk : 0 < k := by
        by_contra hk0
        push_neg at hk0
        have hk1 : k = 0 := by omega
        rw [hk1] at hn
        exact h (by simpa using hn)
      have hpow : (10 : Nat) ^ (k + 1) = 10 ^ k * 10 := pow_succ 10 k
      have hdiv : n / 10 < 10 ^ k := by omega
      have := ihk (n / 10) hk hdiv
      omega

theorem padZeros_length {w : Nat} {s : GoStr} (h : s.length ≤ w) :
    (padZeros w s).length = w := by
  simp only [padZeros, List.length_append, List.length_replicate]
  omega

theorem padZeros_isDigit {w : Nat} {s : GoStr} (hs : ∀ c ∈ s, c.isDigit = true) :
    ∀ c ∈ padZeros w s, c.isDigit = true := by
  intro c hc
  simp only [padZeros, List.mem_append] at hc
  rcases hc with hc | hc
  · rw [List.eq_of_mem_replicate hc]
    rfl
  · exact hs c hc

theorem padZeros_ne_nil {w : Nat} {s : GoStr} (h : s ≠ []) : padZeros w s ≠ [] := by
  simp [padZeros, h]

theorem format200601_isDigit (t : GoTime) : ∀ c ∈ format200601 t, c.isDigit = true := by
  intro c hc
  simp only [format200601, List.mem_append] at hc
  rcases hc with hc | hc
  · exact padZeros_isDigit (natToDigits_isDigit t.year) c hc
  · exact padZeros_isDigit (natToDigits_isDigit t.month) c hc

theorem format200601_ne_nil (t : GoTime) : format200601 t ≠ [] := by
  simp only [format200601]
  intro h
  exact padZeros_ne_nil (natToDigits_ne_nil t.year) (List.append_eq_nil.mp h).1

theorem format200601_head (t : GoTime) :
    ∃ c cs, format200601 t = c :: cs ∧ c.isDigit = true := by
  cases h : format200601 t with
  | nil => exact absurd h (format200601_ne_nil t)
  | cons c cs =>
    refine ⟨c, cs, rfl, format200601_isDigit t c ?_⟩
    rw [h]
    exact List.mem_cons_self c cs

theorem format200601_length (t : GoTime) (hy : t.year < 10000) (hm : t.month < 100) :
    (format200601 t).length = 6 := by
  have e4 : (10 : Nat) ^ 4 = 10000 := by norm_num
  have e2 : (10 : Nat) ^ 2 = 100 := by norm_num
  have h1 : (natToDigits t.year).length ≤ 4 :=
    natToDigits_length_le 4 t.year (by omega) (by omega)
  have h2 : (natToDigits t.month).length ≤ 2 :=
    natToDigits_length_le 2 t.month (by omega) (by omega)
  simp only [format200601, List.length_append, padZeros_length h1, padZeros_length h2]

/-- Decimal reading of a digit string; a proof device that inverts
`natToDigits` and ignores leading zero padding. -/
def readDecimal (l : GoStr) : Nat :=
  l.foldl (fun acc c => acc * 10 + (c.toNat - 48)) 0

theorem foldl_natToDigits (n : Nat) : ∀ a : Nat,
    List.foldl (fun acc c => acc * 10 + (c.toNat - 48)) a (natToDigits n)
      = a * 10 ^ (natToDigits n).length + n := by
  induction n using Nat.strong_induction_on with
  | _ n ih =>
    intro a
    rw [natToDigits_eq]
    by_cases h : n < 10
    · simp only [if_pos h, List.foldl_cons, List.foldl_nil, List.length_singleton]
      rw [digitChar_toNat n h]
      simp only [pow_one]
      omega
    · rw [if_neg h, List.foldl_append]
      simp only [List.foldl_cons, List.foldl_nil, List.length_append,
        List.length_singleton]
      have hd : n / 10 < n := Nat.div_lt_self (by omega) (by omega)
      rw [ih (n / 10) hd a, digitChar_toNat (n % 10) (by omega)]
      rw [pow_succ, ← mul_assoc]
      omega

theorem readDecimal_natToDigits (n : Nat) : readDecimal (natToDigits n) = n := by
  unfold readDecimal
  rw [foldl_natToDigits n 0]
  simp

theorem readDecimal_padZeros (w : Nat) (s : GoStr) :
    readDecimal (padZeros w s) = readDecimal s := by
  unfold readDecimal padZeros
  generalize w - s.length = k
  induction k with
  | zero => rfl
  | succ k ih =>
    rw [List.replicate_succ, List.cons_append, List.foldl_cons]
    have h0 : (0 : Nat) * 10 + ('0'.toNat - 48) = 0 := by decide
    rw [h0]
    exact ih

theorem padZeros_natToDigits_inj {w m n : Nat}
    (h : padZeros w (natToDigits m) = padZeros w (natToDigits n)) : m = n := by
  have h2 := congrArg readDecimal h
  rwa [readDecimal_padZeros, readDecimal_padZeros, readDecimal_natToDigits,
    readDecimal_natToDigits] at h2

theorem format200601_inj {t1 t2 : GoTime} (hm1 : t1.month < 100) (hm2 : t2.month < 100)
    (h : format200601 t1 = format200601 t2) :
    t1.year = t2.year ∧ t1.month = t2.month := by
  have e2 : (10 : Nat) ^ 2 = 100 := by norm_num
  have hl1 : (padZeros 2 (natToDigits t1.month)).length = 2 :=
    padZeros_length (natToDigits_length_le 2 t1.month (by omega) (by omega))
  have hl2 : (padZeros 2 (natToDigits t2.month)).length = 2 :=
    padZeros_length (natToDigits_length_le 2 t2.month (by omega) (by omega))
  obtain ⟨hy, hm⟩ := List.append_inj' h (hl1.trans hl2.symm)
  exact ⟨padZeros_natToDigits_inj hy, padZeros_natToDigits_inj hm⟩

theorem takeWhile_append_stop {p : Char → Bool} {l r : GoStr} {x : Char}
    (hl : ∀ c ∈ l, p c = true) (hx : p x = false) :
    (l ++ x :: r).takeWhile p = l := by
  induction l with
  | nil => simp [List.takeWhile_cons, hx]
  | cons c cs ih =>
    have hc : p c = true := hl c (List.mem_cons_self c cs)
    simp [List.takeWhile_cons, hc, ih fun d hd => hl d (List.mem_cons_of_mem c hd)]

theorem extOf_dot {s t : GoStr} (h : '.' ∉ t) : SdkV1.extOf (s ++ '.' :: t) = t := by
  show (if (goSplit '.' (s ++ '.' :: t)).length > 1
        then (goSplit '.' (s ++ '.' :: t)).getLastD [] else "jpg".data) = t
  obtain ⟨h1, h2⟩ := goSplit_last '.' s t h
  rw [if_pos h2]
  exact h1

theorem extOf_no_dot {f : GoStr} (h : '.' ∉ f) : SdkV1.extOf f = "jpg".data := by
  show (if (goSplit '.' f).length > 1
        then (goSplit '.' f).getLastD [] else "jpg".data) = "jpg".data
  rw [goSplit_of_not_mem '.' f h]
  simp

theorem generateImageKey_ok (f : GoStr) (tm : GoTime) (id : GoStr) :
    SdkV1.GenerateImageKey f tm (id, none)
      = (format200601 tm ++ '/' :: id ++ '.' :: SdkV1.extOf f, none) := rfl

theorem generateImageKey_ok_fst (f : GoStr) (tm : GoTime) (id : GoStr) :
    (SdkV1.GenerateImageKey f tm (id, none)).1
      = format200601 tm ++ '/' :: id ++ '.' :: SdkV1.extOf f := rfl

theorem generateImageKey_err (f : GoStr) (tm : GoTime) (id e : GoStr) :
    SdkV1.GenerateImageKey f tm (id, some e) = ([], some (nanoidErrMsg ++ e)) := rfl

theorem generateImageKeyWithEnv_ok (f env : GoStr) (tm : GoTime) (id : GoStr) :
    SdkV1.GenerateImageKeyWithEnv f env tm (id, none)
      = (if env = "dev".data ∨ env = "development".data
         then "dev/".data ++ (format200601 tm ++ '/' :: id ++ '.' :: SdkV1.extOf f)
         else format200601 tm ++ '/' :: id ++ '.' :: SdkV1.extOf f, none) := by
  show (if env = "dev".data ∨ env = "development".data
        then ("dev/".data ++ (format200601 tm ++ '/' :: id ++ '.' :: SdkV1.extOf f), none)
        else (format200601 tm ++ '/' :: id ++ '.' :: SdkV1.extOf f, none) :
          GoStr × Option GoStr) = _
  by_cases h : env = "dev".data ∨ env = "development".data
  · rw [if_pos h, if_pos h]
  · rw [if_neg h, if_neg h]

theorem generateImageKeyWithEnv_ok_fst (f env : GoStr) (tm : GoTime) (id : GoStr) :
    (SdkV1.GenerateImageKeyWithEnv f env tm (id, none)).1
      = if env = "dev".data ∨ env = "development".data
        then "dev/".data ++ (format200601 tm ++ '/' :: id ++ '.' :: SdkV1.extOf f)
        else format200601 tm ++ '/' :: id ++ '.' :: SdkV1.extOf f := by
  rw [generateImageKeyWithEnv_ok]

theorem generateImageKeyWithEnv_err (f env : GoStr) (tm : GoTime) (id e : GoStr) :
    SdkV1.GenerateImageKeyWithEnv f env tm (id, some e)
      = ([], some (nanoidErrMsg ++ e)) := rfl

/-- C1: for every filename containing at least one dot — written as
`s ++ '.' :: t` with a dot-free tail `t` — the extension segment of the key
returned by `GenerateImageKey` equals `t`, the filename's substring after
its last dot; for every filename with no dot the extension segment is
exactly `"jpg"`. -/
theorem C1_extension_from_filename :
    (∀ (s t : GoStr) (tm : GoTime) (id : GoStr), '.' ∉ t →
      SdkV1.GenerateImageKey (s ++ '.' :: t) tm (id, none)
        = (format200601 tm ++ '/' :: id ++ '.' :: t, none)) ∧
    (∀ (f : GoStr) (tm : GoTime) (id : GoStr), '.' ∉ f →
      SdkV1.GenerateImageKey f tm (id, none)
        = (format200601 tm ++ '/' :: id ++ '.' :: "jpg".data, none)) := by
  constructor
  · intro s t tm id h
    rw [generateImageKey_ok, extOf_dot h]
  · intro f tm id h
    rw [generateImageKey_ok, extOf_no_dot h]

/-- Witness for C1 at the concrete filenames `"photo.png"` and `"readme"`. -/
theorem C1_extension_from_filename_witness :
    ('.' ∉ (['p', 'n', 'g'] : GoStr)) ∧
    SdkV1.GenerateImageKey ("photo".data ++ '.' :: ['p', 'n', 'g']) ⟨2024, 5⟩
        (['a', 'b'], none)
      = (format200601 ⟨2024, 5⟩ ++ '/' :: ['a', 'b'] ++ '.' :: ['p', 'n', 'g'], none) ∧
    ('.' ∉ ("readme".data : GoStr)) ∧
    SdkV1.GenerateImageKey "readme".data ⟨2024, 5⟩ (['a', 'b'], none)
      = (format200601 ⟨2024, 5⟩ ++ '/' :: ['a', 'b'] ++ '.' :: "jpg".data, none) :=
  ⟨by decide,
   C1_extension_from_filename.1 "photo".data ['p', 'n', 'g'] ⟨2024, 5⟩ ['a', 'b']
     (by decide),
   by decide,
   C1_extension_from_filename.2 "readme".data ⟨2024, 5⟩ ['a', 'b'] (by decide)⟩

/-- C2: for every filename, environment, clock reading and random id, the
key returned by `GenerateImageKeyWithEnv` starts with `"dev/"` iff the
environment is exactly `"dev"` or exactly `"development"`. -/
theorem C2_dev_marker_iff :
    ∀ (f env : GoStr) (tm : GoTime) (id : GoStr),
      (∃ rest, (SdkV1.GenerateImageKeyWithEnv f env tm (id, none)).1
          = "dev/".data ++ rest)
      ↔ (env = "dev".data ∨ env = "development".data) := by
  intro f env tm id
  rw [generateImageKeyWithEnv_ok_fst]
  by_cases h : env = "dev".data ∨ env = "development".data
  · rw [if_pos h]
    exact ⟨fun _ => h, fun _ => ⟨_, rfl⟩⟩
  · rw [if_neg h]
    constructor
    · rintro ⟨rest, hrest⟩
      exfalso
      obtain ⟨c, cs, hf, hc⟩ := format200601_head tm
      rw [hf, show ("dev/".data : GoStr) = 'd' :: ['e', 'v', '/'] from rfl,
        List.cons_append] at hrest
      injection hrest with h1 _
      exact isDigit_ne_d hc h1
    · intro hh
      exact absurd hh h

/-- C3 counterexample: with environment `"dev"` and the filename `"x.y/z"`,
whose extension `"y/z"` contains a slash, the generated key has four
slash-delimited segments, exceeding the claimed maximum of three. -/
theorem C3_counterexample :
    (goSplit '/' (SdkV1.GenerateImageKeyWithEnv "x.y/z".data "dev".data ⟨2024, 5⟩
        (['A', 'B', 'C', 'D', 'E', 'F', 'G', 'H', 'I', 'J', 'K', 'L', 'M', 'N', 'O'],
         none)).1).length = 4 := by
  decide

/-- C3 (amended): provided the random identifier and the extension derived
from the filename contain no slash, the generated key is non-empty and has
exactly three slash-delimited segments when the environment is `"dev"` or
`"development"`, and exactly two otherwise. -/
theorem C3_segment_count (f env : GoStr) (tm : GoTime) (id : GoStr)
    (hid : '/' ∉ id) (hext : '/' ∉ SdkV1.extOf f) :
    (SdkV1.GenerateImageKeyWithEnv f env tm (id, none)).1 ≠ [] ∧
    (goSplit '/' (SdkV1.GenerateImageKeyWithEnv f env tm (id, none)).1).length
      = (if env = "dev".data ∨ env = "development".data then 3 else 2) := by
  rw [generateImageKeyWithEnv_ok_fst]
  have hfmt : (format200601 tm).count '/' = 0 := by
    rw [List.count_eq_zero]
    intro hmem
    exact isDigit_ne_slash (format200601_isDigit tm '/' hmem) rfl
  have hidc : id.count '/' = 0 := List.count_eq_zero.mpr hid
  have hextc : (SdkV1.extOf f).count '/' = 0 := List.count_eq_zero.mpr hext
  have hdev : (("dev/".data : GoStr)).count '/' = 1 := by decide
  by_cases h : env = "dev".data ∨ env = "development".data
  · rw [if_pos h, if_pos h]
    constructor
    · intro hnil
      have h2 := (List.append_eq_nil.mp hnil).1
      exact absurd h2 (by decide)
    · rw [goSplit_length]
      simp only [List.count_append, List.count_cons, hfmt, hidc, hextc, hdev]
      decide
  · rw [if_neg h, if_neg h]
    constructor
    · intro hnil
      exact format200601_ne_nil tm
        (List.append_eq_nil.mp (List.append_eq_nil.mp hnil).1).1
    · rw [goSplit_length]
      simp only [List.count_append, List.count_cons, hfmt, hidc, hextc]
      decide

/-- Witness for the amended C3 at the filename `"photo.png"` and the
environment `"dev"`. -/
theorem C3_segment_count_witness :
    ('/' ∉ (['a', 'b'] : GoStr)) ∧ ('/' ∉ SdkV1.extOf "photo.png".data) ∧
    ((SdkV1.GenerateImageKeyWithEnv "photo.png".data "dev".data ⟨2024, 5⟩
        (['a', 'b'], none)).1 ≠ [] ∧
     (goSplit '/' (SdkV1.GenerateImageKeyWithEnv "photo.png".data "dev".data ⟨2024, 5⟩
        (['a', 'b'], none)).1).length
       = (if ("dev".data : GoStr) = "dev".data ∨ ("dev".data : GoStr) = "development".data
          then 3 else 2)) :=
  ⟨by decide, by decide,
   C3_segment_count "photo.png".data "dev".data ⟨2024, 5⟩ ['a', 'b']
     (by decide) (by decide)⟩

/-- C4 counterexample: for the filename `"a.PNG"` the extension embedded in
the key is `"PNG"` exactly as given in the filename, not the lowercase form
`"png"` that the claim predicts. -/
theorem C4_counterexample :
    (SdkV1.GenerateImageKey "a.PNG".data ⟨2024, 5⟩
        (['A', 'B', 'C', 'D', 'E', 'F', 'G', 'H', 'I', 'J', 'K', 'L', 'M', 'N', 'O'],
         none)).1
      ≠ format200601 ⟨2024, 5⟩ ++ '/' ::
          ['A', 'B', 'C', 'D', 'E', 'F', 'G', 'H', 'I', 'J', 'K', 'L', 'M', 'N', 'O'] ++
          '.' :: (['P', 'N', 'G'].map Char.toLower) := by
  decide

/-- C4 (amended): for every filename containing a dot the extension embedded
in the key is the suffix after the last dot exactly as written in the
filename — case preserved, with no lower-casing applied. -/
theorem C4_extension_case_preserved (s t : GoStr) (tm : GoTime) (id : GoStr)
    (h : '.' ∉ t) :
    (SdkV1.GenerateImageKey (s ++ '.' :: t) tm (id, none)).1
      = format200601 tm ++ '/' :: id ++ '.' :: t := by
  rw [generateImageKey_ok_fst, extOf_dot h]

/-- Witness for the amended C4 at the filename `"a.PNG"`. -/
theorem C4_extension_case_preserved_witness :
    ('.' ∉ (['P', 'N', 'G'] : GoStr)) ∧
    (SdkV1.GenerateImageKey ("a".data ++ '.' :: ['P', 'N', 'G']) ⟨2024, 5⟩
        (['x'], none)).1
      = format200601 ⟨2024, 5⟩ ++ '/' :: ['x'] ++ '.' :: ['P', 'N', 'G'] :=
  ⟨by decide,
   C4_extension_case_preserved "a".data ['P', 'N', 'G'] ⟨2024, 5⟩ ['x'] (by decide)⟩

/-- C5: `GenerateImageKeyWithEnv("photo.PNG", "production")`, when the
random source yields a 15-character identifier over the URL-safe alphabet,
succeeds and produces a key of the shape `<six digits>/<id>.PNG` — the
extension's case preserved exactly as given in the filename. -/
theorem C5_photo_png_pattern (tm : GoTime) (id : GoStr)
    (hy : tm.year < 10000) (hm : tm.month < 100)
    (hlen : id.length = 15) (hid : ∀ c ∈ id, isUrlSafeChar c = true) :
    (SdkV1.GenerateImageKeyWithEnv "photo.PNG".data "production".data tm
        (id, none)).2 = none ∧
    ∃ d, (SdkV1.GenerateImageKeyWithEnv "photo.PNG".data "production".data tm
            (id, none)).1
          = d ++ '/' :: id ++ '.' :: ['P', 'N', 'G'] ∧
        d.length = 6 ∧ (∀ c ∈ d, c.isDigit = true) ∧
        id.length = 15 ∧ (∀ c ∈ id, isUrlSafeChar c = true) := by
  have hprod : ¬(("production".data : GoStr) = "dev".data ∨
      ("production".data : GoStr) = "development".data) := by decide
  constructor
  · rw [generateImageKeyWithEnv_ok]
  · refine ⟨format200601 tm, ?_, format200601_length tm hy hm,
      format200601_isDigit tm, hlen, hid⟩
    rw [generateImageKeyWithEnv_ok_fst, if_neg hprod,
      show SdkV1.extOf "photo.PNG".data = (['P', 'N', 'G'] : GoStr) from by decide]

/-- Witness for C5 at a concrete clock reading and concrete 15-character
URL-safe identifier. -/
theorem C5_photo_png_pattern_witness :
    ((2024 : Nat) < 10000) ∧ ((7 : Nat) < 100) ∧
    ((['A', 'B', 'C', 'D', 'E', 'F', 'G', 'H', 'I', 'J', 'K', 'L', 'M', 'N', 'O'] :
        GoStr).length = 15) ∧
    (∀ c ∈ (['A', 'B', 'C', 'D', 'E', 'F', 'G', 'H', 'I', 'J', 'K', 'L', 'M', 'N', 'O'] :
        GoStr), isUrlSafeChar c = true) ∧
    ((SdkV1.GenerateImageKeyWithEnv "photo.PNG".data "production".data ⟨2024, 7⟩
        (['A', 'B', 'C', 'D', 'E', 'F', 'G', 'H', 'I', 'J', 'K', 'L', 'M', 'N', 'O'],
         none)).2 = none ∧
     ∃ d, (SdkV1.GenerateImageKeyWithEnv "photo.PNG".data "production".data ⟨2024, 7⟩
            (['A', 'B', 'C', 'D', 'E', 'F', 'G', 'H', 'I', 'J', 'K', 'L', 'M', 'N', 'O'],
             none)).1
          = d ++ '/' ::
              ['A', 'B', 'C', 'D', 'E', 'F', 'G', 'H', 'I', 'J', 'K', 'L', 'M', 'N', 'O'] ++
              '.' :: ['P', 'N', 'G'] ∧
        d.length = 6 ∧ (∀ c ∈ d, c.isDigit = true) ∧
        (['A', 'B', 'C', 'D', 'E', 'F', 'G', 'H', 'I', 'J', 'K', 'L', 'M', 'N', 'O'] :
          GoStr).length = 15 ∧
        (∀ c ∈ (['A', 'B', 'C', 'D', 'E', 'F', 'G', 'H', 'I', 'J', 'K', 'L', 'M', 'N',
            'O'] : GoStr), isUrlSafeChar c = true)) :=
  ⟨by decide, by decide, by decide, by decide,
   C5_photo_png_pattern ⟨2024, 7⟩
     ['A', 'B', 'C', 'D', 'E', 'F', 'G', 'H', 'I', 'J', 'K', 'L', 'M', 'N', 'O']
     (by decide) (by decide) (by decide) (by decide)⟩

/-- C6: the allocator fails exactly when the random source fails: a failing
source yields the empty key together with the wrapped source error, and a
succeeding source never yields an error — for every filename and
environment, including empty and extension-less filenames, the string
manipulation itself is total. -/
theorem C6_error_propagation (f env : GoStr) (tm : GoTime)
    (src : GoStr × Option GoStr) :
    (∀ e, src.2 = some e →
      SdkV1.GenerateImageKeyWithEnv f env tm src
        = ([], some (nanoidErrMsg ++ e))) ∧
    (src.2 = none → (SdkV1.GenerateImageKeyWithEnv f env tm src).2 = none) := by
  obtain ⟨id, err⟩ := src
  constructor
  · intro e he
    cases err with
    | none => exact Option.noConfusion he
    | some e2 =>
      have he2 : some e2 = some e := he
      have he3 : e2 = e := Option.some.inj he2
      rw [← he3]
      exact generateImageKeyWithEnv_err f env tm id e2
  · intro hn
    cases err with
    | some e2 => exact Option.noConfusion hn
    | none => rw [generateImageKeyWithEnv_ok]

/-- Witness for C6: a failing random source at a concrete input. -/
theorem C6_error_propagation_witness :
    (((['x'] : GoStr), (some ['b'] : Option GoStr)).2 = some ['b']) ∧
    SdkV1.GenerateImageKeyWithEnv [] [] ⟨2024, 1⟩ (['x'], some ['b'])
      = ([], some (nanoidErrMsg ++ ['b'])) :=
  ⟨rfl, (C6_error_propagation [] [] ⟨2024, 1⟩ (['x'], some ['b'])).1 ['b'] rfl⟩

/-- C7: two successfully generated keys carry the same `YYYYMM` date segment
(the key's segment before the first slash) iff the two clock readings fall
in the same calendar year and month; months are below 100, as calendar
months are. -/
theorem C7_month_segment (f1 f2 id1 id2 : GoStr) (t1 t2 : GoTime)
    (hm1 : t1.month < 100) (hm2 : t2.month < 100) :
    ((SdkV1.GenerateImageKey f1 t1 (id1, none)).1.takeWhile (· != '/')
      = (SdkV1.GenerateImageKey f2 t2 (id2, none)).1.takeWhile (· != '/'))
    ↔ (t1.year = t2.year ∧ t1.month = t2.month) := by
  have hseg : ∀ (f id : GoStr) (t : GoTime),
      (SdkV1.GenerateImageKey f t (id, none)).1.takeWhile (· != '/')
        = format200601 t := by
    intro f id t
    rw [generateImageKey_ok_fst, List.append_assoc]
    exact takeWhile_append_stop
      (fun c hc => bne_iff_ne.mpr (isDigit_ne_slash (format200601_isDigit t c hc)))
      (by decide)
  rw [hseg f1 id1 t1, hseg f2 id2 t2]
  constructor
  · intro h
    exact format200601_inj hm1 hm2 h
  · rintro ⟨hy, hm⟩
    unfold format200601
    rw [hy, hm]

/-- Witness for C7: same month on the left of the equivalence, different
month exercised through the hypotheses. -/
theorem C7_month_segment_witness :
    ((5 : Nat) < 100) ∧ ((5 : Nat) < 100) ∧
    (((SdkV1.GenerateImageKey [] ⟨2024, 5⟩ ([], none)).1.takeWhile (· != '/')
       = (SdkV1.GenerateImageKey ['a'] ⟨2024, 5⟩ (['b'], none)).1.takeWhile (· != '/'))
     ↔ ((2024 : Nat) = 2024 ∧ (5 : Nat) = 5)) :=
  ⟨by decide, by decide,
   C7_month_segment [] ['a'] [] ['b'] ⟨2024, 5⟩ ⟨2024, 5⟩ (by decide) (by decide)⟩

/-- C8: the allocator is deterministic in (filename, environment, clock
reading, random-source outcome): two calls with equal inputs return equal
results; the embedding is a pure function of exactly these four inputs, so
no other state can influence the result. -/
theorem C8_deterministic (f1 f2 e1 e2 : GoStr) (t1 t2 : GoTime)
    (s1 s2 : GoStr × Option GoStr)
    (hf : f1 = f2) (he : e1 = e2) (ht : t1 = t2) (hs : s1 = s2) :
    SdkV1.GenerateImageKeyWithEnv f1 e1 t1 s1
      = SdkV1.GenerateImageKeyWithEnv f2 e2 t2 s2 := by
  subst hf
  subst he
  subst ht
  subst hs
  rfl

/-- Witness for C8 at a concrete input. -/
theorem C8_deterministic_witness :
    SdkV1.GenerateImageKeyWithEnv ['a'] ['e'] ⟨2024, 5⟩ (['x'], none)
      = SdkV1.GenerateImageKeyWithEnv ['a'] ['e'] ⟨2024, 5⟩ (['x'], none) :=
  C8_deterministic ['a'] ['a'] ['e'] ['e'] ⟨2024, 5⟩ ⟨2024, 5⟩ (['x'], none)
    (['x'], none) rfl rfl rfl rfl

/-- C9: the SDK v1 program's allocator pair and the SDK v2 program's
allocator pair are extensionally equal: identical keys and identical errors
on every (filename, environment, time, random-source outcome). -/
theorem C9_v1_v2_equal (f env : GoStr) (tm : GoTime)
    (src : GoStr × Option GoStr) :
    SdkV1.GenerateImageKey f tm src = SdkV2.GenerateImageKey f tm src ∧
    SdkV1.GenerateImageKeyWithEnv f env tm src
      = SdkV2.GenerateImageKeyWithEnv f env tm src :=
  ⟨rfl, rfl⟩

/-- C10: the environment influences only the optional prefix: for a
succeeding random source, the environment-aware key is `"dev/"` prepended
to the plain allocator's key for the dev environments and exactly the plain
allocator's key otherwise — date, random-id and extension portions are
identical across all environment values. -/
theorem C10_env_only_affects_marker (f env : GoStr) (tm : GoTime) (id : GoStr) :
    SdkV1.GenerateImageKeyWithEnv f env tm (id, none)
      = (if env = "dev".data ∨ env = "development".data
         then "dev/".data ++ (SdkV1.GenerateImageKey f tm (id, none)).1
         else (SdkV1.GenerateImageKey f tm (id, none)).1, none) := by
  rw [generateImageKeyWithEnv_ok, generateImageKey_ok_fst]
